import Mathlib

/-!
Shallow embedding of `src/frontend/src/components/BacktestingDashboard.tsx`
(the full version of the component, the one with trade history and the
KOSPI benchmark section).

Modelling conventions:
- TypeScript `number` fields are modelled as `Int` where the dashboard
  treats them as currency-like integers or counts, and as `Rat` where the
  code formats them with decimals (`toFixed`); nullable fields
  (`number | null`, optional fields) become `Option`.
- A network call is modelled by the outcome the surrounding `try` block
  can observe: the request may throw (`networkError`), or a response
  arrives with an `ok` flag and a body; the body is `none` when
  `res.json()` itself throws (a parse failure), `some` when it parses.
- Each fetch helper becomes a state transformer
  `DashState → outcome → DashState` mirroring exactly which `set...`
  calls run on which path of the source.
-/

namespace Backtesting

/-- The `PortfolioPosition` interface of the source. -/
structure PortfolioPosition where
  ticker : String
  shares : Int
  current_price : Option Int
  current_value : Option Int
  buy_price : Int
  cost_basis : Int
  pnl : Option Int
  pnl_percent : Option Rat
  purchase_date : Option Int
  purchase_time : Option String
deriving Repr, DecidableEq

/-- The `PortfolioSummary` interface of the source. -/
structure PortfolioSummary where
  cash : Int
  stock_value : Int
  total_value : Int
  initial_capital : Int
  total_pnl : Int
  total_pnl_percent : Rat
  positions_count : Int
  positions : List PortfolioPosition
deriving Repr, DecidableEq

/-- The `BacktestStatus` interface of the source. -/
structure BacktestStatus where
  status : String
  progress : Rat
  current_date : Option String
  current_time_slot : Option String
  message : Option String
deriving Repr, DecidableEq

/-- The `BacktestResults` interface of the source; `kospi_return` and
`excess_return` are optional-and-nullable in the source, collapsed to
`Option`. -/
structure BacktestResults where
  initial_capital : Int
  final_value : Int
  total_return : Rat
  kospi_return : Option Rat
  excess_return : Option Rat
  sharpe_ratio : Rat
  mdd : Rat
  total_trades : Int
  buy_trades : Int
  sell_trades : Int
  trading_days : Int
deriving Repr, DecidableEq

/-- The `TradeRecord` interface of the source; `date` is the YYYYMMDD
integer. -/
structure TradeRecord where
  date : Nat
  time_slot : Option String
  symbol : String
  action : String
  quantity : Int
  price : Int
  total : Int
  buy_price : Option Int
  profit_loss : Option Int
  profit_loss_percent : Option Rat
deriving Repr, DecidableEq

/-- The five `useState` pieces of the component. -/
structure DashState where
  portfolio : Option PortfolioSummary
  status : Option BacktestStatus
  results : Option BacktestResults
  tradeHistory : List TradeRecord
  isLoading : Bool
deriving Repr, DecidableEq

/-- What a `try { const res = await fetch(...); ... }` block can observe:
the request throws, or a response arrives with an `ok` flag and a body
that either parses (`some`) or makes `res.json()` throw (`none`). -/
inductive HttpOutcome (α : Type) where
  | networkError : HttpOutcome α
  | response (ok : Bool) (body : Option α) : HttpOutcome α
deriving Repr, DecidableEq

/-- `fetchStatus`: the source parses `res.json()` and calls `setStatus`
WITHOUT checking `res.ok`; only a thrown request or a thrown parse is
caught (and merely logged), leaving the state unchanged. -/
def fetchStatus (s : DashState) (r : HttpOutcome BacktestStatus) : DashState :=
  match r with
  | .networkError => s
  | .response _ none => s
  | .response _ (some data) => { s with status := some data }

/-- `fetchPortfolio`: `setPortfolio` runs only under `if (res.ok)` and a
successful parse; every other path leaves the state unchanged. -/
def fetchPortfolio (s : DashState) (r : HttpOutcome PortfolioSummary) : DashState :=
  match r with
  | .networkError => s
  | .response ok body =>
    if ok then
      match body with
      | some data => { s with portfolio := some data }
      | none => s
    else s

/-- `fetchResults`: `setResults` runs only under `if (res.ok)` and a
successful parse. -/
def fetchResults (s : DashState) (r : HttpOutcome BacktestResults) : DashState :=
  match r with
  | .networkError => s
  | .response ok body =>
    if ok then
      match body with
      | some data => { s with results := some data }
      | none => s
    else s

/-- `fetchTradeHistory`: `setTradeHistory` runs only under `if (res.ok)`
and a successful parse. -/
def fetchTradeHistory (s : DashState) (r : HttpOutcome (List TradeRecord)) : DashState :=
  match r with
  | .networkError => s
  | .response ok body =>
    if ok then
      match body with
      | some data => { s with tradeHistory := data }
      | none => s
    else s

/-- `resetBacktest`: the DELETE request is awaited inside the `try`, and
the four `set...(null / [])` calls are also inside the `try`, after the
`await`; so on a thrown request the `catch` only logs and the local state
is never cleared. The response body of a non-thrown request is ignored
(`ok` or not, the clears run). -/
def resetBacktest (s : DashState) (r : HttpOutcome Unit) : DashState :=
  match r with
  | .networkError => s
  | .response _ _ =>
    { s with portfolio := none, status := none, results := none, tradeHistory := [] }

/-! ### Formatting helpers -/

/-- Groups a digit list (least-significant character first) into chunks of
three separated by commas; building block of the model of
`Number.prototype.toLocaleString` for the `ko-KR` locale. -/
def groupRev (l : List Char) : List Char :=
  if _h : l.length ≤ 3 then l
  else l.take 3 ++ ',' :: groupRev (l.drop 3)
termination_by l.length
decreasing_by
  simp only [List.length_drop]
  omega

/-- Inserts a comma every three digits counted from the right. -/
def koKRGroup (s : String) : String :=
  ((groupRev s.toList.reverse).reverse).asString

/-- Modelled builtin: `Number.prototype.toLocaleString` with the `ko-KR`
locale on an integer value, i.e. the plain decimal representation with
thousands separators. -/
def toLocaleStringKoKR : Int → String
  | .ofNat m => koKRGroup (Nat.repr m)
  | .negSucc m => "-" ++ koKRGroup (Nat.repr (m + 1))

/-- `formatNumber`: `'-'` for null/undefined, otherwise
`num.toLocaleString('ko-KR')`. -/
def formatNumber (num : Option Int) : String :=
  match num with
  | none => "-"
  | some n => toLocaleStringKoKR n

/-- Rounding used by the model of `Number.prototype.toFixed`: nearest
integer, ties away from zero. -/
def roundHalfAwayFromZero (x : Rat) : Int :=
  if 0 ≤ x then ⌊x + 1/2⌋ else -⌊-x + 1/2⌋

/-- Left-pads the fractional part to two digits. -/
def pad2 (k : Nat) : String :=
  if k < 10 then "0" ++ Nat.repr k else Nat.repr k

/-- Modelled builtin: `Number.prototype.toFixed(2)` on the rational model
of the value. -/
def toFixed2 (q : Rat) : String :=
  (if q < 0 then "-" else "")
    ++ Nat.repr ((roundHalfAwayFromZero (q * 100)).natAbs / 100)
    ++ "." ++ pad2 ((roundHalfAwayFromZero (q * 100)).natAbs % 100)

/-- `formatPercent`: `'-'` for null/undefined, otherwise
`num.toFixed(2)` followed by `%`. -/
def formatPercent (num : Option Rat) : String :=
  match num with
  | none => "-"
  | some n => toFixed2 n ++ "%"

/-- `getStatusColor`: the `switch` over the status string. -/
def getStatusColor (status : String) : String :=
  if status = "running" then "#4CAF50"
  else if status = "completed" then "#2196F3"
  else if status = "error" then "#F44336"
  else if status = "initializing" then "#FF9800"
  else "#9E9E9E"

/-- `getStatusText`: the `switch` over the status string, defaulting to
the raw value. -/
def getStatusText (status : String) : String :=
  if status = "idle" then "대기 중"
  else if status = "initializing" then "초기화 중"
  else if status = "running" then "실행 중"
  else if status = "completed" then "완료"
  else if status = "error" then "오류"
  else status

/-! ### Trade-row formatting -/

/-- JavaScript `String.prototype.slice(a, b)` on a string of plain
characters: the characters in positions `[a, b)`. -/
def sliceStr (s : String) (a b : Nat) : String :=
  ((s.toList.drop a).take (b - a)).asString

/-- The `formattedDate` computation of a trade row: an eight-character
decimal `date` is hyphenated `YYYY-MM-DD`, anything else is shown raw. -/
def formatTradeDate (date : Nat) : String :=
  let dateStr := Nat.repr date
  if dateStr.length = 8 then
    sliceStr dateStr 0 4 ++ "-" ++ sliceStr dateStr 4 6 ++ "-" ++ sliceStr dateStr 6 8
  else dateStr

/-- The `formattedTime` computation of a trade row: a truthy `time_slot`
(a non-empty string) has characters `0,1 / 2,3 / 5,6 / 7,8` rearranged as
`HH:MM-HH:MM`; null/undefined or empty gives the empty string. -/
def formatTradeTime (time_slot : Option String) : String :=
  match time_slot with
  | none => ""
  | some t =>
    if t = "" then ""
    else sliceStr t 0 2 ++ ":" ++ sliceStr t 2 4 ++ "-" ++ sliceStr t 5 7 ++ ":" ++ sliceStr t 7 9

/-! ### The KOSPI benchmark section -/

/-- Render guard of the KOSPI comparison section:
`results.kospi_return !== null && results.kospi_return !== undefined`. -/
def kospiSectionRendered (results : BacktestResults) : Bool :=
  results.kospi_return.isSome

/-- The JSX condition `results.excess_return && results.excess_return >= 0`:
a null/undefined or zero value is falsy, so the plus sign appears only for
a truthy, non-negative value. -/
def excessPlusSign (x : Option Rat) : Bool :=
  match x with
  | none => false
  | some e => (!(e = 0 : Bool)) && decide (0 ≤ e)

/-- The rendered excess-return cell text:
`{cond ? '+' : ''}{results.excess_return?.toFixed(2)}%p`, where the
optional chaining renders nothing when `excess_return` is null/undefined. -/
def excessReturnDisplay (results : BacktestResults) : String :=
  (if excessPlusSign results.excess_return then "+" else "")
    ++ (match results.excess_return with
        | some e => toFixed2 e
        | none => "")
    ++ "%p"

/-! ### startBacktest -/

/-- The fixed configuration object posted by `startBacktest`. Thresholds
are the decimal literals `0.4` and `-0.4` as rationals. -/
structure BacktestConfig where
  start_date : String
  end_date : String
  initial_capital : Int
  long_threshold : Rat
  short_threshold : Rat
  enable_short : Bool
  zscore_type : String
  holding_period_enabled : Bool
  holding_period_value : Int
  holding_period_unit : String
deriving Repr, DecidableEq

/-- The literal body of the POST in `startBacktest`. -/
def backtestConfig : BacktestConfig :=
  { start_date := "2024-01-04"
    end_date := "2024-12-31"
    initial_capital := 100000000
    long_threshold := 4/10
    short_threshold := -4/10
    enable_short := false
    zscore_type := "mom"
    holding_period_enabled := true
    holding_period_value := 30
    holding_period_unit := "days" }

/-- The JSON body of a non-OK `start` response; `detail` may be absent. -/
structure ErrorBody where
  detail : Option String
deriving Repr, DecidableEq

/-- Outcome of the POST issued by `startBacktest`:
the request (or the `res.json()` of the error branch) throws, or the
response is OK (carrying the outcome of the follow-up `fetchStatus`), or
the response is non-OK with a parsed error body (`none` when that
`res.json()` throws). -/
inductive StartOutcome where
  | networkError : StartOutcome
  | okResponse (statusOutcome : HttpOutcome BacktestStatus) : StartOutcome
  | errResponse (body : Option ErrorBody) : StartOutcome
deriving Repr, DecidableEq

/-- Externally visible actions of `startBacktest`. -/
inductive UiEvent where
  | postStart (cfg : BacktestConfig) : UiEvent
  | statusFetchIssued : UiEvent
  | alertShown (msg : String) : UiEvent
deriving Repr, DecidableEq

/-- The state right after the three synchronous calls at the top of
`startBacktest`: `setIsLoading(true); setResults(null); setPortfolio(null)`. -/
def startBacktestPre (s : DashState) : DashState :=
  { s with isLoading := true, results := none, portfolio := none }

/-- JavaScript template interpolation of `error.detail`: an absent field
interpolates as the text `undefined`. -/
def detailText (body : ErrorBody) : String :=
  match body.detail with
  | some d => d
  | none => "undefined"

/-- `startBacktest`: clears results/portfolio and raises the loading flag,
posts the fixed configuration, then follows the source's `if (res.ok)`
branch (an immediate `fetchStatus`), its `else` branch (alert with the
backend detail), or the `catch` (generic alert); the `finally` always
lowers the loading flag. Returns the final state and the emitted events. -/
def startBacktest (s : DashState) (r : StartOutcome) : DashState × List UiEvent :=
  let s1 := startBacktestPre s
  match r with
  | .networkError =>
    ({ s1 with isLoading := false },
     [.postStart backtestConfig, .alertShown "백테스팅 시작 중 오류가 발생했습니다."])
  | .okResponse so =>
    ({ fetchStatus s1 so with isLoading := false },
     [.postStart backtestConfig, .statusFetchIssued])
  | .errResponse body =>
    ({ s1 with isLoading := false },
     [.postStart backtestConfig,
      .alertShown (match body with
        | some eb => "백테스팅 시작 실패: " ++ detailText eb
        | none => "백테스팅 시작 중 오류가 발생했습니다.")])

/-! ### The polling effect

React semantics of the `useEffect` with dependency array
`[status?.status]`: the body runs after the first render and after every
render in which the dependency differs from the previous run; the cleanup
clears the interval before the next run (and on unmount), so at most one
interval is live and it is exactly the one installed by the latest run. -/

/-- The dependency value `status?.status` of the effect. -/
def statusDep (status : Option BacktestStatus) : Option String :=
  status.map (fun st => st.status)

/-- Observable effect bookkeeping: the dependency value of the last run,
whether the installed interval is live, and how many times
`fetchResults` / `fetchTradeHistory` were issued by the effect. -/
structure EffectComponent where
  prevDep : Option (Option String)
  timerActive : Bool
  resultsFetches : Nat
  tradeFetches : Nat
deriving Repr, DecidableEq

/-- A freshly mounted component: no effect has run, no timer is live. -/
def initialComponent : EffectComponent :=
  { prevDep := none, timerActive := false, resultsFetches := 0, tradeFetches := 0 }

/-- One run of the effect body (after the cleanup of the previous run):
`setInterval` when the status is running/initializing, a single
`fetchResults(); fetchTradeHistory()` when it is completed and `!results`,
nothing otherwise. -/
def effectRun (c : EffectComponent) (dep : Option String)
    (results : Option BacktestResults) : EffectComponent :=
  if dep = some "running" ∨ dep = some "initializing" then
    { c with prevDep := some dep, timerActive := true }
  else if dep = some "completed" ∧ results = none then
    { c with prevDep := some dep, timerActive := false,
             resultsFetches := c.resultsFetches + 1,
             tradeFetches := c.tradeFetches + 1 }
  else
    { c with prevDep := some dep, timerActive := false }

/-- One render: the effect re-runs exactly when the dependency changed
(or on the first render). -/
def renderStep (c : EffectComponent) (dep : Option String)
    (results : Option BacktestResults) : EffectComponent :=
  if c.prevDep = some dep then c else effectRun c dep results

/-- A sequence of renders, each with the dependency value and the
`results` state visible to that render. -/
def runRenders (c : EffectComponent) :
    List (Option String × Option BacktestResults) → EffectComponent
  | [] => c
  | (d, r) :: rest => runRenders (renderStep c d r) rest

/-- Specification-side counter: the number of renders along a trace whose
dependency value differs from the previous run and equals `completed`
while no results are loaded — i.e. the number of guarded transitions into
`completed`. -/
def completedFetchCount :
    Option (Option String) → List (Option String × Option BacktestResults) → Nat
  | _, [] => 0
  | prev, (d, r) :: rest =>
    (if prev ≠ some d ∧ d = some "completed" ∧ r = none then 1 else 0)
      + completedFetchCount (some d) rest

/-- Specification-side timer predicate: the timer should be live exactly
when the dependency value of the last effect run was `running` or
`initializing`. -/
def timerExpected : Option (Option String) → Bool
  | some (some d) => d = "running" || d = "initializing"
  | _ => false

/-- Character predicate picking out everything except the inserted
thousands separators. -/
def notComma (c : Char) : Bool := c ≠ ','

/-! ### The start button -/

/-- The JSX test `status?.status === name`. -/
def optStatusIs (status : Option BacktestStatus) (name : String) : Bool :=
  match status with
  | none => false
  | some st => st.status = name

/-- The `disabled` expression of the start button:
`isLoading || status?.status === 'running' || status?.status === 'initializing'`. -/
def startButtonDisabled (s : DashState) : Bool :=
  s.isLoading || optStatusIs s.status "running" || optStatusIs s.status "initializing"

/-! ## Theorems -/

/-- Evaluation helper: the two-decimal rendering of zero. -/
lemma toFixed2_zero : toFixed2 0 = "0.00" := by
  have h : roundHalfAwayFromZero ((0 : Rat) * 100) = 0 := by
    unfold roundHalfAwayFromZero
    rw [if_pos (by norm_num : (0:Rat) ≤ 0 * 100)]
    rw [show ((0:Rat) * 100 + 1/2) = 1/2 by norm_num]
    rw [Int.floor_eq_iff]
    norm_num
  unfold toFixed2
  rw [h, if_neg (by norm_num : ¬ ((0:Rat) < 0))]
  rfl

/-- Evaluation helper: the two-decimal rendering of 6.8. -/
lemma toFixed2_six_point_eight : toFixed2 (34/5) = "6.80" := by
  have h : roundHalfAwayFromZero ((34/5 : Rat) * 100) = 680 := by
    unfold roundHalfAwayFromZero
    rw [if_pos (by norm_num : (0:Rat) ≤ 34/5 * 100)]
    rw [show ((34/5:Rat) * 100 + 1/2) = 1361/2 by norm_num]
    rw [Int.floor_eq_iff]
    norm_num
  unfold toFixed2
  rw [h, if_neg (by norm_num : ¬ ((34/5:Rat) < 0))]
  rfl

/-- C1 counterexample: `fetchStatus` does not check `res.ok`; on a
non-OK response whose body parses, it overwrites the status state, so a
non-OK response does not leave the state untouched. Starting from a state
with no status loaded, a non-OK response carrying a parsed body changes
the status field. -/
theorem fetchStatus_nonok_counterexample :
    (fetchStatus
        { portfolio := none, status := none, results := none,
          tradeHistory := [], isLoading := false }
        (.response false
          (some { status := "completed", progress := 0, current_date := none,
                  current_time_slot := none, message := none }))).status ≠ none := by
  decide

/-- C1 amended: `fetchPortfolio`, `fetchResults` and `fetchTradeHistory`
leave the whole state unchanged on a thrown request, a non-OK response,
or a parse failure; `fetchStatus` leaves the state unchanged on a thrown
request or a parse failure, but on any response whose body parses —
whether OK or non-OK — it replaces the status with that body. -/
theorem fetch_error_handling :
    ∀ (s : DashState) (ok : Bool) (stData : BacktestStatus)
      (pBody : Option PortfolioSummary) (rBody : Option BacktestResults)
      (tBody : Option (List TradeRecord)),
    fetchStatus s .networkError = s ∧
    fetchStatus s (.response ok none) = s ∧
    fetchStatus s (.response ok (some stData)) = { s with status := some stData } ∧
    fetchPortfolio s .networkError = s ∧
    fetchPortfolio s (.response false pBody) = s ∧
    fetchPortfolio s (.response true none) = s ∧
    fetchResults s .networkError = s ∧
    fetchResults s (.response false rBody) = s ∧
    fetchResults s (.response true none) = s ∧
    fetchTradeHistory s .networkError = s ∧
    fetchTradeHistory s (.response false tBody) = s ∧
    fetchTradeHistory s (.response true none) = s := by
  intro s ok stData pBody rBody tBody
  refine ⟨rfl, rfl, rfl, rfl, rfl, rfl, rfl, rfl, rfl, rfl, rfl, rfl⟩

/-- C2 counterexample: when the DELETE request throws, the `catch` runs
and the four clearing calls (which sit inside the `try`, after the
`await`) are skipped, so the state is not cleared: from a state holding a
status, the status field survives a thrown reset. -/
theorem reset_throw_counterexample :
    (resetBacktest
        { portfolio := none,
          status := some { status := "completed", progress := 0, current_date := none,
                           current_time_slot := none, message := none },
          results := none, tradeHistory := [], isLoading := false }
        .networkError).status ≠ none := by
  decide

/-- C2 amended: `resetBacktest` clears status, portfolio, results and
trade history whenever a response arrives (OK or not, body ignored), but
on a thrown request the state is left entirely unchanged, the failure
only logged. -/
theorem reset_clears_on_response :
    ∀ (s : DashState) (ok : Bool) (body : Option Unit),
    (resetBacktest s (.response ok body)).status = none ∧
    (resetBacktest s (.response ok body)).portfolio = none ∧
    (resetBacktest s (.response ok body)).results = none ∧
    (resetBacktest s (.response ok body)).tradeHistory = [] ∧
    resetBacktest s .networkError = s := by
  intro s ok body
  exact ⟨rfl, rfl, rfl, rfl, rfl⟩

/-- C5: each of the five known status strings maps to its fixed color and
label constant, and every other string passes through `getStatusText`
unchanged. -/
theorem status_lookup_table :
    (getStatusColor "idle" = "#9E9E9E" ∧ getStatusColor "initializing" = "#FF9800" ∧
     getStatusColor "running" = "#4CAF50" ∧ getStatusColor "completed" = "#2196F3" ∧
     getStatusColor "error" = "#F44336") ∧
    (getStatusText "idle" = "대기 중" ∧ getStatusText "initializing" = "초기화 중" ∧
     getStatusText "running" = "실행 중" ∧ getStatusText "completed" = "완료" ∧
     getStatusText "error" = "오류") ∧
    (∀ s : String, s ∉ ["idle", "initializing", "running", "completed", "error"] →
      getStatusText s = s) := by
  refine ⟨⟨rfl, rfl, rfl, rfl, rfl⟩, ⟨rfl, rfl, rfl, rfl, rfl⟩, ?_⟩
  intro s hs
  simp only [List.mem_cons, List.not_mem_nil, or_false, not_or] at hs
  obtain ⟨h1, h2, h3, h4, h5⟩ := hs
  simp [getStatusText, h1, h2, h3, h4, h5]

/-- C5 witness: an unknown status string passes through unchanged. -/
theorem status_lookup_table_witness : getStatusText "paused" = "paused" :=
  status_lookup_table.2.2 "paused" (by decide)

/-- C10: the start button is disabled exactly when the loading flag is
set or the loaded status is running or initializing. -/
theorem start_button_disabled_iff :
    ∀ s : DashState,
    startButtonDisabled s = true ↔
      (s.isLoading = true ∨
        ∃ st, s.status = some st ∧ (st.status = "running" ∨ st.status = "initializing")) := by
  intro s
  cases hs : s.status with
  | none => simp [startButtonDisabled, optStatusIs, hs]
  | some st =>
    simp only [startButtonDisabled, optStatusIs, hs, Bool.or_eq_true, decide_eq_true_eq,
      Option.some.injEq]
    constructor
    · rintro ((hl | h) | h)
      · exact Or.inl hl
      · exact Or.inr ⟨st, rfl, Or.inl h⟩
      · exact Or.inr ⟨st, rfl, Or.inr h⟩
    · rintro (hl | ⟨st2, hst, h | h⟩)
      · exact Or.inl (Or.inl hl)
      · cases hst; exact Or.inl (Or.inr h)
      · cases hst; exact Or.inr h

/-- C6: `startBacktest` first nulls results and portfolio and raises the
loading flag; every run posts the fixed configuration object first; an OK
response triggers exactly the follow-up status fetch; a non-OK response
with a parsed `detail` raises an alert whose text carries that detail;
and on every outcome the loading flag ends lowered. -/
theorem startBacktest_behaviour :
    ∀ (s : DashState) (r : StartOutcome) (so : HttpOutcome BacktestStatus) (d : String),
    ((startBacktestPre s).results = none ∧ (startBacktestPre s).portfolio = none ∧
      (startBacktestPre s).isLoading = true) ∧
    (startBacktest s r).2.head? = some (.postStart backtestConfig) ∧
    (UiEvent.statusFetchIssued ∈ (startBacktest s (.okResponse so)).2 ∧
      (startBacktest s (.okResponse so)).1 =
        { fetchStatus (startBacktestPre s) so with isLoading := false }) ∧
    UiEvent.alertShown ("백테스팅 시작 실패: " ++ d)
      ∈ (startBacktest s (.errResponse (some { detail := some d }))).2 ∧
    (startBacktest s r).1.isLoading = false := by
  intro s r so d
  refine ⟨⟨rfl, rfl, rfl⟩, ?_, ⟨?_, rfl⟩, ?_, ?_⟩
  · cases r <;> rfl
  · simp [startBacktest]
  · simp [startBacktest, detailText]
  · cases r <;> rfl

/-- C8 counterexample: with a loaded KOSPI return and an excess return of
exactly zero, the section renders but the excess value is displayed as
`0.00%p` without the plus sign the claim requires for non-negative
values, because the JSX truthiness test treats zero as falsy. -/
theorem excess_zero_counterexample :
    excessReturnDisplay
        { initial_capital := 0, final_value := 0, total_return := 0,
          kospi_return := some (41/5), excess_return := some 0,
          sharpe_ratio := 0, mdd := 0, total_trades := 0, buy_trades := 0,
          sell_trades := 0, trading_days := 0 } = "0.00%p" ∧
    kospiSectionRendered
        { initial_capital := 0, final_value := 0, total_return := 0,
          kospi_return := some (41/5), excess_return := some 0,
          sharpe_ratio := 0, mdd := 0, total_trades := 0, buy_trades := 0,
          sell_trades := 0, trading_days := 0 } = true ∧
    ("0.00%p" : String) ≠ "+0.00%p" := by
  refine ⟨?_, rfl, by decide⟩
  show (if excessPlusSign (some 0) then "+" else "") ++ toFixed2 0 ++ "%p" = "0.00%p"
  have hplus : excessPlusSign (some 0) = false := by simp [excessPlusSign]
  rw [hplus, toFixed2_zero]
  rfl

/-- C8 amended: the KOSPI comparison section renders exactly when
`kospi_return` is non-null, and a loaded excess return is displayed as
its two-decimal rendering suffixed `%p`, prefixed with a plus sign
exactly when it is strictly positive (zero and negative values get no
plus sign). -/
theorem kospi_section_display :
    ∀ (results : BacktestResults) (e : Rat),
    (kospiSectionRendered results = true ↔ results.kospi_return ≠ none) ∧
    (results.excess_return = some e →
      excessReturnDisplay results = (if 0 < e then "+" else "") ++ toFixed2 e ++ "%p") := by
  intro results e
  constructor
  · cases h : results.kospi_return <;> simp [kospiSectionRendered, h]
  · intro he
    simp only [excessReturnDisplay, excessPlusSign, he]
    have hb : ((!decide (e = 0)) && decide (0 ≤ e)) = decide (0 < e) := by
      by_cases h0 : e = 0
      · subst h0; simp
      · by_cases h1 : 0 ≤ e
        · simp [h0, h1, lt_of_le_of_ne h1 (Ne.symm h0)]
        · simp [h0, h1, not_lt.mpr (le_of_not_le h1)]
    rw [hb]
    by_cases hlt : 0 < e <;> simp [hlt]

/-- C8 witness: the spec scenario, an excess return of 6.8 displayed as
`+6.80%p` in a rendered section. -/
theorem kospi_section_display_witness :
    excessReturnDisplay
        { initial_capital := 0, final_value := 0, total_return := 0,
          kospi_return := some (41/5), excess_return := some (34/5),
          sharpe_ratio := 0, mdd := 0, total_trades := 0, buy_trades := 0,
          sell_trades := 0, trading_days := 0 } = "+6.80%p" := by
  have h := (kospi_section_display
      { initial_capital := 0, final_value := 0, total_return := 0,
        kospi_return := some (41/5), excess_return := some (34/5),
        sharpe_ratio := 0, mdd := 0, total_trades := 0, buy_trades := 0,
        sell_trades := 0, trading_days := 0 } (34/5)).2 rfl
  rw [h, if_pos (by norm_num : (0:Rat) < 34/5), toFixed2_six_point_eight]
  rfl

/-- Trace lemma: along any render trace, the number of `fetchResults`
calls issued by the effect equals the number of guarded transitions into
`completed`. -/
lemma runRenders_resultsFetches :
    ∀ (tr : List (Option String × Option BacktestResults)) (c : EffectComponent),
    (runRenders c tr).resultsFetches = c.resultsFetches + completedFetchCount c.prevDep tr := by
  intro tr
  induction tr with
  | nil => intro c; simp [runRenders, completedFetchCount]
  | cons hd rest ih =>
    obtain ⟨d, r⟩ := hd
    intro c
    simp only [runRenders, completedFetchCount]
    by_cases hp : c.prevDep = some d
    · have hstep : renderStep c d r = c := by rw [renderStep, if_pos hp]
      rw [hstep, ih c, hp]
      simp
    · have hstep : renderStep c d r = effectRun c d r := by rw [renderStep, if_neg hp]
      rw [hstep]
      unfold effectRun
      by_cases h1 : d = some "running" ∨ d = some "initializing"
      · rw [if_pos h1, ih _]
        have hcond : ¬ (c.prevDep ≠ some d ∧ d = some "completed" ∧ r = none) := by
          rintro ⟨-, hc, -⟩
          rcases h1 with h | h <;> rw [h] at hc <;> exact absurd hc (by decide)
        simp [hcond]
      · rw [if_neg h1]
        by_cases h2 : d = some "completed" ∧ r = none
        · rw [if_pos h2, ih _]
          have hcond : c.prevDep ≠ some d ∧ d = some "completed" ∧ r = none :=
            ⟨hp, h2.1, h2.2⟩
          rw [if_pos hcond]
          dsimp only
          omega
        · rw [if_neg h2, ih _]
          have hcond : ¬ (c.prevDep ≠ some d ∧ d = some "completed" ∧ r = none) :=
            fun hx => h2 ⟨hx.2.1, hx.2.2⟩
          simp [hcond]

/-- Trace lemma: the trade-history fetch count follows the same count. -/
lemma runRenders_tradeFetches :
    ∀ (tr : List (Option String × Option BacktestResults)) (c : EffectComponent),
    (runRenders c tr).tradeFetches = c.tradeFetches + completedFetchCount c.prevDep tr := by
  intro tr
  induction tr with
  | nil => intro c; simp [runRenders, completedFetchCount]
  | cons hd rest ih =>
    obtain ⟨d, r⟩ := hd
    intro c
    simp only [runRenders, completedFetchCount]
    by_cases hp : c.prevDep = some d
    · have hstep : renderStep c d r = c := by rw [renderStep, if_pos hp]
      rw [hstep, ih c, hp]
      simp
    · have hstep : renderStep c d r = effectRun c d r := by rw [renderStep, if_neg hp]
      rw [hstep]
      unfold effectRun
      by_cases h1 : d = some "running" ∨ d = some "initializing"
      · rw [if_pos h1, ih _]
        have hcond : ¬ (c.prevDep ≠ some d ∧ d = some "completed" ∧ r = none) := by
          rintro ⟨-, hc, -⟩
          rcases h1 with h | h <;> rw [h] at hc <;> exact absurd hc (by decide)
        simp [hcond]
      · rw [if_neg h1]
        by_cases h2 : d = some "completed" ∧ r = none
        · rw [if_pos h2, ih _]
          have hcond : c.prevDep ≠ some d ∧ d = some "completed" ∧ r = none :=
            ⟨hp, h2.1, h2.2⟩
          rw [if_pos hcond]
          dsimp only
          omega
        · rw [if_neg h2, ih _]
          have hcond : ¬ (c.prevDep ≠ some d ∧ d = some "completed" ∧ r = none) :=
            fun hx => h2 ⟨hx.2.1, hx.2.2⟩
          simp [hcond]

/-- C3: over every render trace from a fresh mount, the number of results
fetches and of trade-history fetches issued by the effect both equal the
number of transitions of the dependency into `completed` that happen
while no results are loaded — one fetch of each per such transition, none
while results stay loaded or the dependency does not change. -/
theorem completed_transition_fetch_once :
    ∀ tr : List (Option String × Option BacktestResults),
    (runRenders initialComponent tr).resultsFetches = completedFetchCount none tr ∧
    (runRenders initialComponent tr).tradeFetches = completedFetchCount none tr := by
  intro tr
  constructor
  · rw [runRenders_resultsFetches tr initialComponent]
    simp [initialComponent]
  · rw [runRenders_tradeFetches tr initialComponent]
    simp [initialComponent]

/-- Invariant: the timer is live exactly when the last effect run used a
dependency in the polling range. -/
lemma runRenders_timer :
    ∀ (tr : List (Option String × Option BacktestResults)) (c : EffectComponent),
    c.timerActive = timerExpected c.prevDep →
    (runRenders c tr).timerActive = timerExpected (runRenders c tr).prevDep := by
  intro tr
  induction tr with
  | nil => intro c h; exact h
  | cons hd rest ih =>
    obtain ⟨d, r⟩ := hd
    intro c h
    simp only [runRenders]
    apply ih
    by_cases hp : c.prevDep = some d
    · rw [renderStep, if_pos hp]; exact h
    · rw [renderStep, if_neg hp]
      unfold effectRun
      by_cases h1 : d = some "running" ∨ d = some "initializing"
      · rw [if_pos h1]
        rcases h1 with h1 | h1 <;> (subst h1; simp [timerExpected])
      · rw [if_neg h1]
        by_cases h2 : d = some "completed" ∧ r = none
        · rw [if_pos h2]
          obtain ⟨h2a, -⟩ := h2
          subst h2a
          simp [timerExpected]
        · rw [if_neg h2]
          cases d with
          | none => simp [timerExpected]
          | some str =>
            have hs1 : str ≠ "running" := fun hh => h1 (Or.inl (by rw [hh]))
            have hs2 : str ≠ "initializing" := fun hh => h1 (Or.inr (by rw [hh]))
            simp [timerExpected, hs1, hs2]

/-- After a trace ending in a render with dependency `d`, the last run
dependency is `d`. -/
lemma runRenders_prevDep_append :
    ∀ (tr : List (Option String × Option BacktestResults)) (c : EffectComponent)
      (d : Option String) (r : Option BacktestResults),
    (runRenders c (tr ++ [(d, r)])).prevDep = some d := by
  intro tr
  induction tr with
  | nil =>
    intro c d r
    simp only [List.nil_append, runRenders]
    by_cases hp : c.prevDep = some d
    · rw [renderStep, if_pos hp]; exact hp
    · rw [renderStep, if_neg hp]
      unfold effectRun
      split
      · rfl
      · split <;> rfl
  | cons hd rest ih =>
    obtain ⟨d0, r0⟩ := hd
    intro c d r
    simp only [List.cons_append, runRenders]
    exact ih _ d r

/-- C4: on a fresh mount the polling timer is absent, and after any trace
of renders the timer is live if and only if the dependency value of the
latest render — the backend-reported status — is `running` or
`initializing`; for `idle`, `completed`, `error`, any other value, or no
status at all, it is absent (so it is torn down whenever the status
leaves the polling range). -/
theorem polling_timer_iff :
    ∀ (tr : List (Option String × Option BacktestResults)) (d : Option String)
      (r : Option BacktestResults),
    (runRenders initialComponent []).timerActive = false ∧
    ((runRenders initialComponent (tr ++ [(d, r)])).timerActive = true ↔
      (d = some "initializing" ∨ d = some "running")) := by
  intro tr d r
  refine ⟨rfl, ?_⟩
  have h := runRenders_timer (tr ++ [(d, r)]) initialComponent rfl
  rw [runRenders_prevDep_append tr initialComponent d r] at h
  rw [h]
  cases d with
  | none => simp [timerExpected]
  | some str =>
    simp only [timerExpected, Bool.or_eq_true, decide_eq_true_eq, Option.some.injEq]
    tauto

/-- Grouping only inserts commas: dropping the commas recovers the
original character list. -/
lemma filter_groupRev (l : List Char) :
    (groupRev l).filter notComma = l.filter notComma := by
  induction l using groupRev.induct with
  | case1 l h => rw [groupRev, dif_pos h]
  | case2 l h ih =>
    rw [groupRev, dif_neg h, List.filter_append, List.filter_cons]
    have hc : notComma ',' = false := by decide
    rw [hc]
    simp only [Bool.false_eq_true, if_false]
    rw [ih, ← List.filter_append, List.take_append_drop]

/-- Dropping the commas from the grouped string recovers the plain
digit string. -/
lemma filter_koKRGroup (s : String) :
    (koKRGroup s).toList.filter notComma = s.toList.filter notComma := by
  show ((groupRev s.toList.reverse).reverse).filter notComma = _
  rw [List.filter_reverse, filter_groupRev, ← List.filter_reverse, List.reverse_reverse]

/-- C9: the two formatting helpers are total and treat missing values
uniformly: both return the dash on null/undefined; a present number is
rendered by `formatNumber` as its `ko-KR` thousands-grouped decimal
representation — removing the separators recovers exactly the plain
decimal string — and by `formatPercent` as its two-decimal rendering
suffixed with a percent sign. -/
theorem format_helpers_total :
    ∀ (n : Int) (q : Rat),
    formatNumber none = "-" ∧ formatPercent none = "-" ∧
    formatNumber (some n) = toLocaleStringKoKR n ∧
    (formatNumber (some n)).toList.filter notComma = (toString n).toList.filter notComma ∧
    formatPercent (some q) = toFixed2 q ++ "%" := by
  intro n q
  refine ⟨rfl, rfl, rfl, ?_, rfl⟩
  cases n with
  | ofNat m =>
    show (koKRGroup (Nat.repr m)).toList.filter notComma
        = (Nat.repr m).toList.filter notComma
    exact filter_koKRGroup (Nat.repr m)
  | negSucc m =>
    show (("-" ++ koKRGroup (Nat.repr (m + 1))).data).filter notComma
        = (("-" ++ Nat.repr (m + 1)).data).filter notComma
    rw [String.data_append, String.data_append, List.filter_append, List.filter_append]
    have h1 : (koKRGroup (Nat.repr (m + 1))).data.filter notComma
        = (Nat.repr (m + 1)).data.filter notComma := filter_koKRGroup (Nat.repr (m + 1))
    rw [h1]

/-- Slicing helper: taking the length of the left part of an append. -/
lemma take_append_of_length (l₁ l₂ : List Char) (k : Nat) (h : l₁.length = k) :
    (l₁ ++ l₂).take k = l₁ := by
  subst h; exact List.take_left l₁ l₂

/-- Slicing helper: dropping the length of the left part of an append. -/
lemma drop_append_of_length (l₁ l₂ : List Char) (k : Nat) (h : l₁.length = k) :
    (l₁ ++ l₂).drop k = l₂ := by
  subst h; exact List.drop_left l₁ l₂

/-- Slicing helper: taking the whole length of a list. -/
lemma take_all_of_length (l : List Char) (k : Nat) (h : l.length = k) :
    l.take k = l := by
  subst h; exact List.take_length l

/-- C7: a trade date whose decimal representation splits into four, two
and two digits is rendered with hyphens between the three groups; a date
whose representation is not eight characters long is rendered raw; and a
time slot of the literal shape `HHMM_HHMM` is rendered `HH:MM-HH:MM`. -/
theorem trade_row_formatting :
    ∀ (n : Nat) (y m d hh1 mm1 hh2 mm2 : List Char),
    ((Nat.repr n).toList = y ++ m ++ d → y.length = 4 → m.length = 2 → d.length = 2 →
      formatTradeDate n = y.asString ++ "-" ++ m.asString ++ "-" ++ d.asString) ∧
    ((Nat.repr n).length ≠ 8 → formatTradeDate n = Nat.repr n) ∧
    (hh1.length = 2 → mm1.length = 2 → hh2.length = 2 → mm2.length = 2 →
      formatTradeTime (some ((hh1 ++ mm1 ++ '_' :: (hh2 ++ mm2)).asString)) =
        hh1.asString ++ ":" ++ mm1.asString ++ "-" ++ hh2.asString ++ ":" ++ mm2.asString) := by
  intro n y m d hh1 mm1 hh2 mm2
  refine ⟨?_, ?_, ?_⟩
  · intro hsplit hy hm hd
    have hy2 : (Nat.repr n).toList = y ++ (m ++ d) := by
      rw [hsplit, List.append_assoc]
    have hlen : (Nat.repr n).length = 8 := by
      show (Nat.repr n).data.length = 8
      rw [show (Nat.repr n).data = y ++ m ++ d from hsplit]
      simp [hy, hm, hd]
    unfold formatTradeDate
    rw [if_pos hlen]
    unfold sliceStr
    have l1 : ((Nat.repr n).toList.drop 0).take (4 - 0) = y := by
      rw [List.drop_zero, hy2]
      exact take_append_of_length y (m ++ d) (4 - 0) (by rw [hy])
    have l2 : ((Nat.repr n).toList.drop 4).take (6 - 4) = m := by
      rw [hy2, drop_append_of_length y (m ++ d) 4 hy]
      exact take_append_of_length m d (6 - 4) (by rw [hm])
    have l3 : ((Nat.repr n).toList.drop 6).take (8 - 6) = d := by
      rw [show (Nat.repr n).toList = (y ++ m) ++ d from hsplit]
      rw [drop_append_of_length (y ++ m) d 6 (by simp [hy, hm])]
      exact take_all_of_length d (8 - 6) (by rw [hd])
    rw [l1, l2, l3]
  · intro h
    unfold formatTradeDate
    rw [if_neg h]
  · intro ha hb hc hd
    have hne : (hh1 ++ mm1 ++ '_' :: (hh2 ++ mm2)).asString ≠ "" := by
      intro heq
      have h0 := congrArg String.data heq
      simp [List.asString] at h0
    simp only [formatTradeTime]
    rw [if_neg hne]
    unfold sliceStr
    have ht1 : ((hh1 ++ mm1 ++ '_' :: (hh2 ++ mm2)).asString).toList
        = hh1 ++ (mm1 ++ ('_' :: (hh2 ++ mm2))) := by
      show hh1 ++ mm1 ++ '_' :: (hh2 ++ mm2) = _
      rw [List.append_assoc]
    have ht3 : ((hh1 ++ mm1 ++ '_' :: (hh2 ++ mm2)).asString).toList
        = ((hh1 ++ mm1) ++ ['_']) ++ (hh2 ++ mm2) := by
      show hh1 ++ mm1 ++ '_' :: (hh2 ++ mm2) = _
      simp [List.append_assoc]
    have ht4 : ((hh1 ++ mm1 ++ '_' :: (hh2 ++ mm2)).asString).toList
        = (((hh1 ++ mm1) ++ ['_']) ++ hh2) ++ mm2 := by
      show hh1 ++ mm1 ++ '_' :: (hh2 ++ mm2) = _
      simp [List.append_assoc]
    have l1 : (((hh1 ++ mm1 ++ '_' :: (hh2 ++ mm2)).asString).toList.drop 0).take (2 - 0)
        = hh1 := by
      rw [List.drop_zero, ht1]
      exact take_append_of_length hh1 (mm1 ++ ('_' :: (hh2 ++ mm2))) (2 - 0) (by rw [ha])
    have l2 : (((hh1 ++ mm1 ++ '_' :: (hh2 ++ mm2)).asString).toList.drop 2).take (4 - 2)
        = mm1 := by
      rw [ht1, drop_append_of_length hh1 (mm1 ++ ('_' :: (hh2 ++ mm2))) 2 ha]
      exact take_append_of_length mm1 ('_' :: (hh2 ++ mm2)) (4 - 2) (by rw [hb])
    have l3 : (((hh1 ++ mm1 ++ '_' :: (hh2 ++ mm2)).asString).toList.drop 5).take (7 - 5)
        = hh2 := by
      rw [ht3, drop_append_of_length ((hh1 ++ mm1) ++ ['_']) (hh2 ++ mm2) 5 (by simp [ha, hb])]
      exact take_append_of_length hh2 mm2 (7 - 5) (by rw [hc])
    have l4 : (((hh1 ++ mm1 ++ '_' :: (hh2 ++ mm2)).asString).toList.drop 7).take (9 - 7)
        = mm2 := by
      rw [ht4, drop_append_of_length (((hh1 ++ mm1) ++ ['_']) ++ hh2) mm2 7
        (by simp [ha, hb, hc])]
      exact take_all_of_length mm2 (9 - 7) (by rw [hd])
    rw [l1, l2, l3, l4]

/-- C7 witness: the spec scenario, date 20240104 rendered `2024-01-04`
and time slot `0900_0910` rendered `09:00-09:10`. -/
theorem trade_row_formatting_witness :
    formatTradeDate 20240104 = "2024-01-04" ∧
    formatTradeTime (some "0900_0910") = "09:00-09:10" := by
  constructor
  · have h := (trade_row_formatting 20240104 ['2', '0', '2', '4'] ['0', '1'] ['0', '4']
        [] [] [] []).1 rfl rfl rfl rfl
    exact h.trans (by decide)
  · have h := (trade_row_formatting 0 [] [] [] ['0', '9'] ['0', '0'] ['0', '9']
        ['1', '0']).2.2 rfl rfl rfl rfl
    exact h.trans (by decide)

end Backtesting
